import Mathlib

/-!
Verification development for the 0g-storage-homework repository.

The repository contains two small Go programs that upload a large file to the
0G storage network in fixed-size chunks and download the chunks back by their
Merkle roots:

* `src/main.go` — the current program: it splits the test file into
  `ChunkSize`-byte chunks inside a `for i := 0; i < 10; i++` loop, uploads each
  chunk through `StorageClient.Upload` (which passes a hard-coded
  `transfer.UploadOption` to the indexer and computes the Merkle root locally
  with `core.MerkleTree`), collects the roots in order, and then downloads each
  root for verification, printing a final completion banner.
* `src/unnamed/part_000` — a legacy variant that shells out to the
  `0g-storage-client` binary and recovers the root hash by regex-matching the
  console output of the binary (`parseRootHash`).

The Merkle-tree hash itself and the network/download internals live in the
`0g-storage-client` SDK, outside this repository; those are modelled from the
spec (see `computeRoot`, `retrieve`). Everything else below is translated
directly from the two Go files.
-/

/-- A byte payload is modelled as a list of naturals (one per byte). -/
abbrev Bytes := List Nat

/-- A fragment root identifier. -/
abbrev Root := List Nat

/-- A transaction hash, as returned by `txHash.Hex()`. -/
abbrev TxHash := String

/-- Modelled from the spec: `computeRoot` stands for the deterministic
Merkle-style content hash `core.MerkleTree(...).Root()` of the
`0g-storage-client` SDK, which is not part of the sources of this repository.
The spec requires a pure deterministic hash whose collision resistance is
assumed from the underlying primitive; we idealize collision resistance as
injectivity by tagging the payload itself. -/
def computeRoot (b : Bytes) : Root := 0 :: b

/-- computeRoot is injective: the idealized collision resistance of the spec. -/
theorem computeRoot_injective {a b : Bytes} (h : computeRoot a = computeRoot b) : a = b := by
  simpa [computeRoot] using h

/-- main.go line 26: `ChunkSize = 400 * 1024 * 1024` (400MB per chunk). -/
def ChunkSize : Nat := 400 * 1024 * 1024

/-- main.go line 28: `UploadTaskSize = 16 * 1024 * 1024` (16MB). -/
def UploadTaskSize : Nat := 16 * 1024 * 1024

/-- main.go line 25: `LargeFileSize = 4 * 1024 * 1024 * 1024` (4GB). -/
def LargeFileSize : Nat := 4 * 1024 * 1024 * 1024

/-- The finality requirement choices of `transfer.UploadOption`. -/
inductive Finality where
  | FileFinalized
  | TransactionPacked
deriving DecidableEq, Repr

/-- The fields of `transfer.UploadOption` that `main.go` sets (lines 145-151). -/
structure UploadOption where
  finalityRequired : Finality
  expectedReplica : Nat
  taskSize : Nat
  method : String
  fullTrusted : Bool
deriving DecidableEq, Repr

/-- The `transfer.UploadOption` literal that `StorageClient.Upload` passes to
`idx.Upload` (main.go lines 145-151). It does not depend on the data, let
alone on any caller-supplied policy: `Upload` has no policy parameter. -/
def uploadOptionOf (_data : Bytes) : UploadOption :=
  { finalityRequired := .FileFinalized
    expectedReplica := 1
    taskSize := UploadTaskSize
    method := "min"
    fullTrusted := true }

/-- Errors produced by `StorageClient.Upload`, mirroring its two wrapped error
returns (main.go lines 152-160): network upload failure and Merkle-root
computation failure. (`core.NewDataInMemory` on an in-memory byte slice is
modelled as total.) -/
inductive UploadErr where
  | net (msg : String)
  | merkle (msg : String)
deriving DecidableEq, Repr

/-- The SDK calls `StorageClient.Upload` makes, as an explicit environment:
`netUpload` is the outcome of `c.idx.Upload(ctx, c.w3, iter, opts)` and
`merkleTree` the outcome of `core.MerkleTree(iter)` (which in Go returns an
error alongside the tree). Both are keyed by the fragment bytes. -/
structure UploadEnv where
  netUpload : Bytes → UploadOption → Except String TxHash
  merkleTree : Bytes → Except String Root

/-- main.go lines 138-163, `StorageClient.Upload`: upload the bytes through
the indexer with the hard-coded options, then compute the Merkle root locally
and return `(txHash, root)`. If the root computation fails after the network
upload succeeded, the transaction hash is discarded and an error returned. -/
def StorageClient.Upload (env : UploadEnv) (data : Bytes) : Except UploadErr (TxHash × Root) :=
  match env.netUpload data (uploadOptionOf data) with
  | .error e => .error (.net e)
  | .ok txHash =>
    match env.merkleTree data with
    | .error e => .error (.merkle e)
    | .ok root => .ok (txHash, root)

/-- The environment in which `core.MerkleTree` behaves per the spec (a pure,
total hash, `computeRoot`) while the network outcome `net` is arbitrary. -/
def stdEnv (net : Bytes → UploadOption → Except String TxHash) : UploadEnv :=
  { netUpload := net, merkleTree := fun b => .ok (computeRoot b) }

/-- A fully successful environment: the network accepts every fragment
(returning transaction hash `txOf b`) and the Merkle hash is `computeRoot`. -/
def okEnv (txOf : Bytes → TxHash) : UploadEnv :=
  stdEnv (fun b _ => .ok (txOf b))

/-- One entry of the collected per-fragment results: fragment index, the root
appended to `roots` (main.go line 92), and the reported transaction hash. -/
structure UploadRecord where
  idx : Nat
  root : Root
  txHash : TxHash
deriving DecidableEq, Repr

/-- The overall outcome of the upload loop: `Completed` when the loop exits
normally (n == 0 or 10 iterations), `FailedAt i` when the upload of fragment `i`
fails and `log.Fatalf` aborts the run (main.go line 89). -/
inductive Status where
  | Completed
  | FailedAt (i : Nat)
deriving DecidableEq, Repr

/-- The state the upload loop builds: the ordered records, the outcome, and
how many `Upload` calls were issued. -/
structure TransferSession where
  records : List UploadRecord
  status : Status
  uploadsAttempted : Nat
deriving DecidableEq, Repr

/-- main.go lines 70-94, the upload loop: `for i := 0; i < 10; i++` reads
`min F (remaining)` bytes with `io.ReadFull` (modelled by `s.take F`),
breaks when `n == 0`, calls `StorageClient.Upload` on the bytes read, aborts
on its first failure (`log.Fatalf`), and otherwise appends the root in index
order. `fuel` is the remaining iteration budget, 10 at the top level. -/
def transferLoop (env : UploadEnv) (F : Nat) : Nat → Nat → Bytes → TransferSession
  | 0, _, _ => ⟨[], .Completed, 0⟩
  | fuel + 1, i, s =>
    if (s.take F).isEmpty then ⟨[], .Completed, 0⟩
    else
      match StorageClient.Upload env (s.take F) with
      | .error _ => ⟨[], .FailedAt i, 1⟩
      | .ok (tx, r) =>
        let rest := transferLoop env F fuel (i + 1) (s.drop F)
        ⟨⟨i, r, tx⟩ :: rest.records, rest.status, rest.uploadsAttempted + 1⟩

/-- The whole upload phase of `main` on source bytes `S` with fragment size
`F` (in the program, `F = ChunkSize`): at most 10 iterations. -/
def transfer (env : UploadEnv) (S : Bytes) (F : Nat) : TransferSession :=
  transferLoop env F 10 0 S

/-- The pure splitting the loop performs on the source bytes, with the same
10-iteration budget: the successive `io.ReadFull` windows `buffer[:n]`. -/
def splitFragments (F : Nat) : Nat → Bytes → List Bytes
  | 0, _ => []
  | fuel + 1, s =>
    if (s.take F).isEmpty then [] else s.take F :: splitFragments F fuel (s.drop F)

/-- The fragments that the loop of `main` reads from `S` (fuel 10, as in the code). -/
def fragments (S : Bytes) (F : Nat) : List Bytes := splitFragments F 10 S

/-- Retrieval failures, per the taxonomy of the spec for RetrievalVerifier:
`NotFound`, `IntegrityMismatch`, `Transport`. -/
inductive RetrieveErr where
  | NotFound
  | IntegrityMismatch
  | Transport (msg : String)
deriving DecidableEq, Repr

/-- Modelled from the spec: the RetrievalVerifier behind `idx.Download`
(main.go lines 166-169); the download internals live in the
`0g-storage-client` SDK, outside this repository. Per the spec it fetches the
bytes stored under the requested root, recomputes the root with the
ContentAddresser, and fails with `IntegrityMismatch` (never returning the
bytes) when the recomputed root differs. `fetch` is the network lookup. -/
def retrieve (fetch : Root → Except RetrieveErr Bytes) (root : Root) : Except RetrieveErr Bytes :=
  match fetch root with
  | .error e => .error e
  | .ok bs => if computeRoot bs = root then .ok bs else .error .IntegrityMismatch

/-- Modelled from the spec: `retrieveAll(orderedRoots)` retrieves each root in
index order and concatenates the per-fragment results. -/
def retrieveAll (fetch : Root → Except RetrieveErr Bytes) : List Root → Except RetrieveErr Bytes
  | [] => .ok []
  | r :: rs =>
    match retrieve fetch r with
    | .error e => .error e
    | .ok b =>
      match retrieveAll fetch rs with
      | .error e => .error e
      | .ok bs => .ok (b ++ bs)

/-- The content-addressed store the network holds after the given fragments
were uploaded: a lookup by root over the uploaded fragments ("no injected
network failures"). -/
def storeOf (frags : List Bytes) : Root → Except RetrieveErr Bytes := fun r =>
  match frags.find? (fun b => computeRoot b == r) with
  | some b => .ok b
  | none => .error .NotFound

/-- What the step-3 loop and epilogue of `main` report: one success flag per root
(`✅ 下载成功` vs the `log.Printf` error), and whether the final completion
banner (`🚀 恭喜！全流程完成`, main.go lines 110-112) is printed. -/
structure RunReport where
  perRoot : List Bool
  finalBanner : Bool
deriving DecidableEq, Repr

/-- Whether a value of Except is a success. -/
def exceptIsOk {ε α : Type} : Except ε α → Bool
  | .ok _ => true
  | .error _ => false

/-- main.go lines 96-112, the download-verification phase: for each collected
root, attempt the download and record success or failure; a failure is only
logged (`log.Printf`, line 103) — the loop continues and the final banner is
printed unconditionally afterwards. -/
def downloadPhase (fetch : Root → Except RetrieveErr Bytes) (roots : List Root) : RunReport :=
  { perRoot := roots.map (fun r => exceptIsOk (retrieve fetch r))
    finalBanner := true }

/-- part_000 character classes: the Go regexp `\s` inside `[:\s]` is
`[\t\n\f\r ]`, so the separator class of `parseRootHash` is colon or one of
those five whitespace characters. -/
def isColonOrSpace (c : Char) : Bool :=
  c == ':' || c == ' ' || c == '\t' || c == '\n' || c == '\x0c' || c == '\r'

/-- Hexadecimal digit class `[a-fA-F0-9]` of `parseRootHash`. -/
def isHexDigitGo (c : Char) : Bool :=
  ('a' ≤ c && c ≤ 'f') || ('A' ≤ c && c ≤ 'F') || ('0' ≤ c && c ≤ '9')

/-- Attempt to match the regexp `root[:\s]+(0x[a-fA-F0-9]{64})` at the head of
the character list, returning the capture group (`0x` plus 64 hex digits).
Since `0` is not in `[:\s]`, the greedy `[:\s]+` is equivalent to taking the
maximal separator run and then requiring `0x`. -/
def matchRootAt : List Char → Option (List Char)
  | 'r' :: 'o' :: 'o' :: 't' :: rest =>
    let sep := rest.takeWhile isColonOrSpace
    let afterSep := rest.dropWhile isColonOrSpace
    if sep.isEmpty then none
    else
      match afterSep with
      | '0' :: 'x' :: tl =>
        if (tl.take 64).length == 64 && (tl.take 64).all isHexDigitGo then
          some ('0' :: 'x' :: tl.take 64)
        else none
      | _ => none
  | _ => none

/-- Leftmost-match scan over the log text. -/
def scanForRoot : List Char → List Char
  | [] => []
  | c :: rest =>
    match matchRootAt (c :: rest) with
    | some cap => cap
    | none => scanForRoot rest

/-- part_000 lines 131-138, `parseRootHash`: recover the root hash from the
console output of the client binary by regex-matching
`root[:\s]+(0x[a-fA-F0-9]{64})`; empty result when there is no match. -/
def parseRootHash (log : List Char) : List Char := scanForRoot log

/-- part_000 lines 63-69 (inside `main`): after running the external upload
command, the root is recovered by parsing the captured console output; an
empty parse is the error path, otherwise the parsed text is the result the
rest of the program uses. -/
def legacyUploadFlow (consoleOutput : List Char) : Except String (List Char) :=
  let rootHash := parseRootHash consoleOutput
  if rootHash.isEmpty then .error "cannot find root hash in output" else .ok rootHash


/-! ### Helper lemmas about the split and the upload loop -/

/-- Taking an empty window means the fragment size is zero or the stream is
exhausted. -/
theorem take_isEmpty_cases {s : Bytes} {F : Nat} (h : (s.take F).isEmpty = true) :
    F = 0 ∨ s = [] := by
  rcases F with _ | F
  · exact Or.inl rfl
  · rcases s with _ | ⟨a, s⟩
    · exact Or.inr rfl
    · simp [List.take, List.isEmpty] at h

/-- Concatenating the windows the loop reads within a given iteration budget
yields exactly the first `fuel * F` bytes of the stream. -/
theorem splitFragments_flatten (F fuel : Nat) :
    ∀ s : Bytes, (splitFragments F fuel s).flatten = s.take (fuel * F) := by
  induction fuel with
  | zero => intro s; simp [splitFragments]
  | succ fuel ih =>
    intro s
    by_cases h : (s.take F).isEmpty
    · rcases take_isEmpty_cases h with h0 | h0 <;> simp [splitFragments, h, h0]
    · have step : s.take ((fuel + 1) * F) = s.take F ++ (s.drop F).take (fuel * F) := by
        have : (fuel + 1) * F = F + fuel * F := by
          rw [Nat.succ_mul, Nat.add_comm]
        rw [this, List.take_add]
      simp [splitFragments, h, List.flatten, ih (s.drop F), step]

/-- The loop reads at most `fuel` fragments. -/
theorem splitFragments_length_le (F fuel : Nat) :
    ∀ s : Bytes, (splitFragments F fuel s).length ≤ fuel := by
  induction fuel with
  | zero => intro s; simp [splitFragments]
  | succ fuel ih =>
    intro s
    by_cases h : (s.take F).isEmpty
    · simp [splitFragments, h]
    · simpa [splitFragments, h, Nat.succ_le_succ_iff] using ih (s.drop F)

/-- Unfolding `StorageClient.Upload` in an environment with the spec Merkle
hash: the result is the network outcome paired with the locally computed root. -/
theorem Upload_stdEnv (net : Bytes → UploadOption → Except String TxHash) (data : Bytes) :
    StorageClient.Upload (stdEnv net) data =
      match net data (uploadOptionOf data) with
      | .error e => .error (.net e)
      | .ok tx => .ok (tx, computeRoot data) := by
  cases h : net data (uploadOptionOf data) <;>
    simp [StorageClient.Upload, stdEnv, h]

/-- In a fully successful environment every upload returns the transaction
hash and the locally computed root. -/
theorem Upload_okEnv (txOf : Bytes → TxHash) (data : Bytes) :
    StorageClient.Upload (okEnv txOf) data = .ok (txOf data, computeRoot data) := rfl

/-- The indices recorded by the loop starting at `i` form the contiguous range
`i, i+1, ...` of length `records.length`: strictly increasing, no gaps, no
duplicates. -/
theorem transferLoop_idx (env : UploadEnv) (F : Nat) :
    ∀ fuel i, ∀ s : Bytes,
      (transferLoop env F fuel i s).records.map (fun rec => rec.idx) =
        List.range' i (transferLoop env F fuel i s).records.length := by
  intro fuel
  induction fuel with
  | zero => intro i s; simp [transferLoop]
  | succ fuel ih =>
    intro i s
    by_cases h : (s.take F).isEmpty
    · simp [transferLoop, h]
    · cases hU : StorageClient.Upload env (s.take F) with
      | error e => simp [transferLoop, h, hU]
      | ok v =>
        obtain ⟨tx, r⟩ := v
        simp only [transferLoop, h, hU, Bool.false_eq_true, if_false, List.map_cons,
          List.length_cons]
        rw [ih (i + 1) (s.drop F)]
        rfl

/-- The roots the loop records (in an environment with the spec Merkle hash)
are exactly the roots of the first `records.length` fragments, in order. -/
theorem transferLoop_roots (net : Bytes → UploadOption → Except String TxHash) (F : Nat) :
    ∀ fuel i, ∀ s : Bytes,
      (transferLoop (stdEnv net) F fuel i s).records.map (fun rec => rec.root) =
        ((splitFragments F fuel s).take
          (transferLoop (stdEnv net) F fuel i s).records.length).map computeRoot := by
  intro fuel
  induction fuel with
  | zero => intro i s; simp [transferLoop, splitFragments]
  | succ fuel ih =>
    intro i s
    by_cases h : (s.take F).isEmpty
    · simp [transferLoop, splitFragments, h]
    · cases hN : net (s.take F) (uploadOptionOf (s.take F)) with
      | error e =>
        simp [transferLoop, splitFragments, h, Upload_stdEnv, hN]
      | ok tx =>
        simp only [transferLoop, splitFragments, h, Upload_stdEnv, hN, Bool.false_eq_true,
          if_false, List.map_cons, List.length_cons, List.take_succ_cons]
        rw [ih (i + 1) (s.drop F)]

/-- Bookkeeping of the loop outcome: if the loop reports `FailedAt j` then it
recorded exactly the fragments before `j` (relative to the starting index) and
issued one more upload (the failing one); if it reports `Completed`, every
issued upload was recorded. -/
theorem transferLoop_status (env : UploadEnv) (F : Nat) :
    ∀ fuel i, ∀ s : Bytes,
      (∀ j, (transferLoop env F fuel i s).status = .FailedAt j →
          i + (transferLoop env F fuel i s).records.length = j ∧
          (transferLoop env F fuel i s).uploadsAttempted =
            (transferLoop env F fuel i s).records.length + 1) ∧
        ((transferLoop env F fuel i s).status = .Completed →
          (transferLoop env F fuel i s).uploadsAttempted =
            (transferLoop env F fuel i s).records.length) := by
  intro fuel
  induction fuel with
  | zero => intro i s; simp [transferLoop]
  | succ fuel ih =>
    intro i s
    by_cases h : (s.take F).isEmpty
    · simp [transferLoop, h]
    · cases hU : StorageClient.Upload env (s.take F) with
      | error e => simp [transferLoop, h, hU]
      | ok v =>
        obtain ⟨tx, r⟩ := v
        have ihd := ih (i + 1) (s.drop F)
        constructor
        · intro j hj
          simp only [transferLoop, h, hU, Bool.false_eq_true, if_false] at hj ⊢
          obtain ⟨hidx, hatt⟩ := ihd.1 j hj
          simp only [List.length_cons]
          omega
        · intro hc
          simp only [transferLoop, h, hU, Bool.false_eq_true, if_false] at hc ⊢
          have := ihd.2 hc
          simp only [List.length_cons]
          omega

/-- In a fully successful environment the loop completes, records one root per
fragment, and those roots are the fragment roots in order. -/
theorem transferLoop_okEnv (txOf : Bytes → TxHash) (F : Nat) :
    ∀ fuel i, ∀ s : Bytes,
      (transferLoop (okEnv txOf) F fuel i s).records.map (fun rec => rec.root) =
          (splitFragments F fuel s).map computeRoot ∧
        (transferLoop (okEnv txOf) F fuel i s).status = .Completed := by
  intro fuel
  induction fuel with
  | zero => intro i s; simp [transferLoop, splitFragments]
  | succ fuel ih =>
    intro i s
    by_cases h : (s.take F).isEmpty
    · simp [transferLoop, splitFragments, h]
    · have ihd := ih (i + 1) (s.drop F)
      simp only [transferLoop, splitFragments, h, Upload_okEnv, Bool.false_eq_true, if_false,
        List.map_cons]
      exact ⟨by rw [ihd.1], ihd.2⟩

/-- The loop never records or attempts more than its iteration budget. -/
theorem transferLoop_le_fuel (env : UploadEnv) (F : Nat) :
    ∀ fuel i, ∀ s : Bytes,
      (transferLoop env F fuel i s).records.length ≤ fuel ∧
        (transferLoop env F fuel i s).uploadsAttempted ≤ fuel := by
  intro fuel
  induction fuel with
  | zero => intro i s; simp [transferLoop]
  | succ fuel ih =>
    intro i s
    by_cases h : (s.take F).isEmpty
    · simp [transferLoop, h]
    · cases hU : StorageClient.Upload env (s.take F) with
      | error e => simp [transferLoop, h, hU]
      | ok v =>
        obtain ⟨tx, r⟩ := v
        have ihd := ih (i + 1) (s.drop F)
        simp only [transferLoop, h, hU, Bool.false_eq_true, if_false, List.length_cons]
        omega

/-- Looking up the root of an uploaded fragment in the content-addressed store
returns that fragment (injectivity of the idealized hash). -/
theorem storeOf_computeRoot {frags : List Bytes} {b : Bytes} (hb : b ∈ frags) :
    storeOf frags (computeRoot b) = .ok b := by
  induction frags with
  | nil => cases hb
  | cons a frags ih =>
    by_cases h : computeRoot a = computeRoot b
    · have : a = b := computeRoot_injective h
      subst this
      simp [storeOf, List.find?]
    · have hne : (computeRoot a == computeRoot b) = false := by
        simpa using h
      have hb2 : b ∈ frags := by
        rcases hb with _ | hb2
        · exact absurd rfl h
        · assumption
      have := ih hb2
      simpa [storeOf, List.find?, hne] using this

/-- Retrieving the root of an uploaded fragment passes the integrity check and
returns the fragment bytes. -/
theorem retrieve_storeOf {frags : List Bytes} {b : Bytes} (hb : b ∈ frags) :
    retrieve (storeOf frags) (computeRoot b) = .ok b := by
  simp [retrieve, storeOf_computeRoot hb]

/-- Retrieving the roots of a batch of uploaded fragments in order and
concatenating reproduces the concatenation of those fragments. -/
theorem retrieveAll_storeOf {frags : List Bytes} :
    ∀ batch : List Bytes, (∀ b ∈ batch, b ∈ frags) →
      retrieveAll (storeOf frags) (batch.map computeRoot) = .ok batch.flatten := by
  intro batch
  induction batch with
  | nil => intro _; simp [retrieveAll]
  | cons b batch ih =>
    intro hmem
    have hb : b ∈ frags := hmem b (List.mem_cons_self b batch)
    have hrest := ih (fun x hx => hmem x (List.mem_cons_of_mem b hx))
    simp [retrieveAll, retrieve_storeOf hb, hrest]

/-- If an upload in an environment with the spec Merkle hash succeeds, the
returned root is the locally computed root of the input bytes. -/
theorem Upload_stdEnv_root {net : Bytes → UploadOption → Except String TxHash} {data : Bytes}
    {tx : TxHash} {r : Root}
    (h : StorageClient.Upload (stdEnv net) data = .ok (tx, r)) : r = computeRoot data := by
  rw [Upload_stdEnv] at h
  cases hN : net data (uploadOptionOf data) <;> rw [hN] at h <;> simp at h
  exact h.2.symm

/-! ### Claims -/

/-- C1, counterexample: an 11-byte stream with fragment size 1 is split by the
loop of `main` into only 10 fragments (the iteration cap), so concatenating
the fragments in index order does not reproduce the source: the 11th byte is
assigned to no fragment. -/
theorem C1_counterexample :
    (fragments (List.replicate 11 0) 1).flatten ≠ List.replicate 11 0 := by
  decide

/-- C1 (amended): for every source stream `S` and fragment size `F > 0` with
`S.length ≤ 10 * F` (the iteration budget of the loop), concatenating the
fragments in index order reproduces `S` exactly — including a shorter final
fragment and the empty stream — and in a failure-free run every fragment is
uploaded, one collected root per fragment in index order. Beyond `10 * F`
bytes the loop stops and the remaining bytes are dropped. -/
theorem C1_split_reconstructs (S : Bytes) (F : Nat) (h : S.length ≤ 10 * F) :
    (fragments S F).flatten = S ∧
      ∀ txOf : Bytes → TxHash,
        (transfer (okEnv txOf) S F).records.map (fun rec => rec.root) =
          (fragments S F).map computeRoot := by
  constructor
  · rw [fragments, splitFragments_flatten, List.take_of_length_le h]
  · intro txOf
    exact (transferLoop_okEnv txOf F 10 0 S).1

/-- C1, witness: a 7-byte stream with fragment size 2 (partial final
fragment) is reconstructed exactly. -/
theorem C1_witness :
    (List.replicate 7 3 : Bytes).length ≤ 10 * 2 ∧
      (fragments (List.replicate 7 3) 2).flatten = List.replicate 7 3 :=
  ⟨by decide, (C1_split_reconstructs (List.replicate 7 3) 2 (by decide)).1⟩

/-- C2, counterexample: for an 11-byte stream and fragment size 1, retrieving
every root collected by a completed (failure-free) transfer and concatenating
the downloaded bytes yields only the first 10 bytes, not the source. -/
theorem C2_counterexample :
    retrieveAll (storeOf (fragments (List.replicate 11 0) 1))
        ((transfer (stdEnv (fun _ _ => Except.ok "0xtx")) (List.replicate 11 0) 1).records.map
          (fun rec => rec.root)) ≠ Except.ok (List.replicate 11 0) := by
  have heval :
      retrieveAll (storeOf (fragments (List.replicate 11 0) 1))
        ((transfer (stdEnv (fun _ _ => Except.ok "0xtx")) (List.replicate 11 0) 1).records.map
          (fun rec => rec.root)) = Except.ok (List.replicate 10 0) := rfl
  rw [heval]
  intro h
  exact absurd (Except.ok.inj h) (by decide)

/-- C2 (amended): for any source stream `S`, fragment size `F` with
`S.length ≤ 10 * F`, and failure-free network, retrieving every root produced
by the completed transfer of `S` in index order and concatenating the
downloaded fragment bytes yields exactly `S`. -/
theorem C2_round_trip (S : Bytes) (F : Nat) (txOf : Bytes → TxHash)
    (h : S.length ≤ 10 * F) :
    retrieveAll (storeOf (fragments S F))
        ((transfer (okEnv txOf) S F).records.map (fun rec => rec.root)) = Except.ok S := by
  have hroots : (transfer (okEnv txOf) S F).records.map (fun rec => rec.root) =
      (fragments S F).map computeRoot := (transferLoop_okEnv txOf F 10 0 S).1
  rw [hroots, retrieveAll_storeOf (fragments S F) (fun b hb => hb)]
  rw [fragments, splitFragments_flatten, List.take_of_length_le h]

/-- C2, witness: round-trip of a concrete 5-byte stream with fragment size 2. -/
theorem C2_witness :
    ([1, 2, 3, 4, 5] : Bytes).length ≤ 10 * 2 ∧
      retrieveAll (storeOf (fragments [1, 2, 3, 4, 5] 2))
        ((transfer (okEnv (fun _ => "0xtx")) [1, 2, 3, 4, 5] 2).records.map
          (fun rec => rec.root)) = Except.ok [1, 2, 3, 4, 5] :=
  ⟨by decide, C2_round_trip [1, 2, 3, 4, 5] 2 (fun _ => "0xtx") (by decide)⟩

/-- C3: at a concrete failing retrieval — the store serves bytes `[9, 9]` for
the root of `[1, 2, 3]` — the verifier fails with `IntegrityMismatch` and
never returns the corrupted bytes as success, yet the step-3 loop of `main`
only logs the failure (`log.Printf`, main.go line 103) and the final
completion banner (main.go lines 110-112) is printed anyway: the overall run
is still reported as successfully completed, contradicting the claim. -/
theorem C3_failure_still_reports_success :
    retrieve (fun _ => Except.ok [9, 9]) (computeRoot [1, 2, 3]) =
        Except.error RetrieveErr.IntegrityMismatch ∧
      downloadPhase (fun _ => Except.ok [9, 9]) [computeRoot [1, 2, 3]] =
        ⟨[false], true⟩ :=
  ⟨rfl, rfl⟩

/-- C4, counterexample: the `transfer.UploadOption` that `StorageClient.Upload`
passes to the indexer is identical for every call — including the emptiest and
an arbitrary fragment — with replication and finality fixed to the values
written in the source (`ExpectedReplica: 1`, `FinalityRequired: FileFinalized`,
main.go lines 146-147). The upload operation takes no policy input: the
policy is not caller-supplied, refuting the claim. -/
theorem C4_counterexample :
    uploadOptionOf [] = uploadOptionOf [1, 2, 3] ∧
      (uploadOptionOf []).expectedReplica = 1 ∧
      (uploadOptionOf []).finalityRequired = Finality.FileFinalized :=
  ⟨rfl, rfl, rfl⟩

/-- C4 (amended): `StorageClient.Upload` accepts only the fragment bytes; the
replication policy (`ExpectedReplica = 1`), the finality requirement
(`FileFinalized`) and the task size (16 MiB) are hard-coded in the
`UploadOption` it passes to `idx.Upload`, identical for every call. -/
theorem C4_hard_coded_policy :
    ∀ data : Bytes,
      uploadOptionOf data = uploadOptionOf [] ∧
        (uploadOptionOf data).expectedReplica = 1 ∧
        (uploadOptionOf data).finalityRequired = Finality.FileFinalized ∧
        (uploadOptionOf data).taskSize = UploadTaskSize :=
  fun _ => ⟨rfl, rfl, rfl, rfl⟩

/-- C5, counterexample: the legacy program (src/unnamed/part_000) does recover
the root by parsing human-readable console text: on a log line containing
`root: 0x` followed by 64 hex digits, `parseRootHash` extracts the hash and
the flow proceeds with it, refuting "no code path of the program recovers the
root by parsing log or console text". -/
theorem C5_counterexample :
    legacyUploadFlow
        ('r' :: 'o' :: 'o' :: 't' :: ':' :: ' ' :: '0' :: 'x' :: List.replicate 64 'a') =
      Except.ok ('0' :: 'x' :: List.replicate 64 'a') := rfl

/-- C5 (amended): in the reimplementation (main.go), the upload flow returns
the root as a structured, typed value directly from the upload call — a
successful `StorageClient.Upload` yields the locally computed root of the
bytes, with no log parsing involved — but the repository also contains the
legacy program (src/unnamed/part_000) whose flow recovers the root by
regex-parsing console output via `parseRootHash`. -/
theorem C5_typed_result :
    (∀ (net : Bytes → UploadOption → Except String TxHash) (data : Bytes) (tx : TxHash)
        (r : Root), StorageClient.Upload (stdEnv net) data = .ok (tx, r) →
          r = computeRoot data) ∧
      legacyUploadFlow
          ('r' :: 'o' :: 'o' :: 't' :: ':' :: ' ' :: '0' :: 'x' :: List.replicate 64 'b') =
        Except.ok ('0' :: 'x' :: List.replicate 64 'b') := by
  constructor
  · intro net data tx r h
    exact Upload_stdEnv_root h
  · rfl

/-- C5, witness: a concrete successful upload whose typed result carries the
computed root. -/
theorem C5_witness :
    StorageClient.Upload (stdEnv (fun _ _ => Except.ok "0xabc")) [1, 2] =
        Except.ok ("0xabc", computeRoot [1, 2]) ∧
      computeRoot [1, 2] = computeRoot [1, 2] :=
  ⟨rfl, C5_typed_result.1 (fun _ _ => Except.ok "0xabc") [1, 2] "0xabc" (computeRoot [1, 2]) rfl⟩

/-- C6: for an empty source stream the first `io.ReadFull` returns `n = 0`,
the loop breaks immediately: the transfer session has zero records (an empty
list of roots), status `Completed` (the run falls through to the final
banner, not a failure), and zero upload calls are attempted — for every
environment and every fragment size. -/
theorem C6_empty_source (env : UploadEnv) (F : Nat) :
    transfer env [] F = ⟨[], Status.Completed, 0⟩ := by
  simp [transfer, transferLoop]

/-- C7: in every transfer session (with the spec Merkle hash and an arbitrary
network), the collected records appear in strictly increasing fragment index
order with no gaps and no duplicates — their indices are exactly
`0, 1, ..., len-1` — the i-th collected root is the root of the i-th fragment
of the source, and on the first unrecoverable fragment failure at index `j`
exactly the `j` earlier fragments were recorded and no further upload beyond
the failing one was issued. -/
theorem C7_ordering (net : Bytes → UploadOption → Except String TxHash) (S : Bytes) (F : Nat) :
    (transfer (stdEnv net) S F).records.map (fun rec => rec.idx) =
        List.range (transfer (stdEnv net) S F).records.length ∧
      (transfer (stdEnv net) S F).records.map (fun rec => rec.root) =
        ((fragments S F).take (transfer (stdEnv net) S F).records.length).map computeRoot ∧
      ∀ j, (transfer (stdEnv net) S F).status = Status.FailedAt j →
        (transfer (stdEnv net) S F).records.length = j ∧
          (transfer (stdEnv net) S F).uploadsAttempted = j + 1 := by
  simp only [transfer, fragments]
  refine ⟨?_, transferLoop_roots net F 10 0 S, ?_⟩
  · rw [transferLoop_idx (stdEnv net) F 10 0 S, List.range_eq_range']
  · intro j hj
    obtain ⟨h1, h2⟩ := (transferLoop_status (stdEnv net) F 10 0 S).1 j hj
    exact ⟨by omega, by omega⟩

/-- C7, witness: a concrete run whose second fragment upload fails: one
record, with index range `[0]`, and exactly two uploads attempted. -/
theorem C7_witness :
    (transfer
          (stdEnv (fun b _ => if b = [2, 3] then Except.error "boom" else Except.ok "0xtx"))
          [0, 1, 2, 3, 4] 2).records.map (fun rec => rec.idx) = List.range 1 ∧
      (transfer
          (stdEnv (fun b _ => if b = [2, 3] then Except.error "boom" else Except.ok "0xtx"))
          [0, 1, 2, 3, 4] 2).records.length = 1 ∧
      (transfer
          (stdEnv (fun b _ => if b = [2, 3] then Except.error "boom" else Except.ok "0xtx"))
          [0, 1, 2, 3, 4] 2).uploadsAttempted = 2 := by
  have h := C7_ordering
    (fun b _ => if b = [2, 3] then Except.error "boom" else Except.ok "0xtx") [0, 1, 2, 3, 4] 2
  exact ⟨h.1, (h.2.2 1 rfl).1, (h.2.2 1 rfl).2⟩

/-- C8: the root returned by a successful `Upload` is a deterministic function
of the fragment bytes alone: two runs on identical bytes against arbitrary —
even different — network responses yield the identical root, which is the
locally computed `computeRoot` of the bytes, independent of what the
transaction response reports. -/
theorem C8_root_deterministic
    (net1 net2 : Bytes → UploadOption → Except String TxHash) (data : Bytes)
    (tx1 tx2 : TxHash) (r1 r2 : Root)
    (h1 : StorageClient.Upload (stdEnv net1) data = .ok (tx1, r1))
    (h2 : StorageClient.Upload (stdEnv net2) data = .ok (tx2, r2)) :
    r1 = r2 ∧ r1 = computeRoot data := by
  have e1 := Upload_stdEnv_root h1
  have e2 := Upload_stdEnv_root h2
  exact ⟨e1.trans e2.symm, e1⟩

/-- C8, witness: two networks reporting different transaction hashes for the
same bytes still yield the same root. -/
theorem C8_witness :
    StorageClient.Upload (stdEnv (fun _ _ => Except.ok "0xaaa")) [5, 6] =
        Except.ok ("0xaaa", computeRoot [5, 6]) ∧
      StorageClient.Upload (stdEnv (fun _ _ => Except.ok "0xbbb")) [5, 6] =
        Except.ok ("0xbbb", computeRoot [5, 6]) ∧
      computeRoot [5, 6] = computeRoot [5, 6] :=
  ⟨rfl, rfl,
    (C8_root_deterministic (fun _ _ => Except.ok "0xaaa") (fun _ _ => Except.ok "0xbbb")
      [5, 6] "0xaaa" "0xbbb" (computeRoot [5, 6]) (computeRoot [5, 6]) rfl rfl).2⟩

/-- C9: the upload loop of `main` executes at most 10 iterations for every
source and fragment size: at most 10 fragments are read, at most 10 records
(roots) collected and at most 10 uploads issued in any environment, and the
bytes the loop reads are exactly the first `10 * F` bytes of the source —
anything beyond is never read or uploaded. With the configured
`F = ChunkSize = 400 MiB` this is the first `10 × 400 MiB`. -/
theorem C9_ten_iteration_bound (S : Bytes) (F : Nat) (env : UploadEnv) :
    (fragments S F).length ≤ 10 ∧
      (fragments S F).flatten = S.take (10 * F) ∧
      (transfer env S F).records.length ≤ 10 ∧
      (transfer env S F).uploadsAttempted ≤ 10 ∧
      ChunkSize = 400 * 1024 * 1024 :=
  ⟨splitFragments_length_le F 10 S, splitFragments_flatten F 10 S,
    (transferLoop_le_fuel env F 10 0 S).1, (transferLoop_le_fuel env F 10 0 S).2, rfl⟩

/-- C10: `StorageClient.Upload` is not atomic with respect to its remote side
effect: if the network upload (`idx.Upload`) succeeds — the durable remote
write has occurred and a transaction hash was returned — but the subsequent
local Merkle-root computation fails, `Upload` returns the Merkle error and the
transaction hash is discarded (the error value carries no transaction hash). -/
theorem C10_upload_not_atomic (env : UploadEnv) (data : Bytes) (tx : TxHash) (e : String)
    (hnet : env.netUpload data (uploadOptionOf data) = .ok tx)
    (hmerkle : env.merkleTree data = .error e) :
    StorageClient.Upload env data = .error (UploadErr.merkle e) := by
  simp [StorageClient.Upload, hnet, hmerkle]

/-- C10, witness: a concrete environment whose network upload succeeds with a
transaction hash but whose Merkle computation fails: the upload returns only
the Merkle error. -/
theorem C10_witness :
    StorageClient.Upload
        ⟨fun _ _ => Except.ok "0xdead", fun _ => Except.error "merkle bad"⟩ [1] =
      Except.error (UploadErr.merkle "merkle bad") :=
  C10_upload_not_atomic
    ⟨fun _ _ => Except.ok "0xdead", fun _ => Except.error "merkle bad"⟩ [1]
    "0xdead" "merkle bad" rfl rfl
